import Mathlib

/-!
A verification development for the `match` Go package (`src/match.go`).

The package exposes two functions:

* `Matches(expected, actual interface{}) bool` — a recursive structural
  comparison built on `reflect` (`matchesValues`), with order-agnostic
  matching for arrays/slices;
* `MatchesHTTPResponse(expected, actual *http.Response) bool` — a
  comparison of two HTTP responses (status, headers, body read, trailers,
  JSON-or-raw body comparison) built on `Matches`.

We embed the dynamic (`reflect`) view of Go values as the inductive type
`GoValue`, with `GoValue.invalid` playing the role of the zero
`reflect.Value` (as produced by `reflect.ValueOf(nil)` or by
`Value.MapIndex` on a missing key).  Run-time panics — calling
`reflect.Value.Type` on the zero `Value`, and `==` applied to interface
values whose identical dynamic type is not comparable — are modelled by
`Except.error ()`; an ordinary boolean verdict is `Except.ok b`.
-/

set_option maxHeartbeats 1600000

namespace GoMatch

/-- A `float64` value: either a (exactly represented) numeric value or NaN.
The finite-precision rounding of decimal literals is not modelled; IEEE
equality (`NaN ≠ NaN`) is. -/
inductive GoFloat where
  | num (q : ℚ)
  | nan
deriving DecidableEq

/-- Go runtime types, as far as `matchesValues` dispatches on them:
the `reflect.Kind`s it names (`Ptr`, `Array`, `Slice`, `Struct`, `Map`)
plus the scalar leaves and `interface{}` that reach the `default` arm.
A struct field is `(name, exported?, type)`: `exported? = true` models
`PkgPath == ""`. Array types carry their length, as in Go. -/
inductive GoType where
  | int
  | string
  | bool
  | float
  | ptr (elem : GoType)
  | array (n : Nat) (elem : GoType)
  | slice (elem : GoType)
  | struct (name : String) (fields : List (String × Bool × GoType))
  | map (key elem : GoType)
  | iface

mutual

/-- Type identity (`reflect.Type` equality is identity of the type;
structural equality of our representation). -/
def GoType.beq : GoType → GoType → Bool
  | .int, .int => true
  | .string, .string => true
  | .bool, .bool => true
  | .float, .float => true
  | .ptr a, .ptr b => GoType.beq a b
  | .array n a, .array m b => n == m && GoType.beq a b
  | .slice a, .slice b => GoType.beq a b
  | .struct n fs, .struct m gs => n == m && GoType.beqFields fs gs
  | .map k v, .map k' v' => GoType.beq k k' && GoType.beq v v'
  | .iface, .iface => true
  | _, _ => false

def GoType.beqFields : List (String × Bool × GoType) → List (String × Bool × GoType) → Bool
  | [], [] => true
  | (n, e, t) :: fs, (n', e', t') :: gs =>
    n == n' && e == e' && GoType.beq t t' && GoType.beqFields fs gs
  | _, _ => false

end

mutual

/-- Whether a Go type is comparable (admissible for `==`): slices, maps
(and structs containing them) are not; everything else here is. -/
def GoType.comparable : GoType → Bool
  | .int => true
  | .string => true
  | .bool => true
  | .float => true
  | .iface => true
  | .ptr _ => true
  | .array _ t => GoType.comparable t
  | .slice _ => false
  | .map _ _ => false
  | .struct _ fs => GoType.comparableFields fs

def GoType.comparableFields : List (String × Bool × GoType) → Bool
  | [] => true
  | (_, _, t) :: fs => GoType.comparable t && GoType.comparableFields fs

end

/-- A Go value as seen through `reflect.Value`.

* `invalid` is the zero `reflect.Value` (`reflect.ValueOf(nil)`, or
  `MapIndex` on a missing key);
* `vptr` carries the pointer's address so that `==` on pointers (identity)
  is representable; `vnilptr` is the nil pointer of a given pointee type;
* `vstruct` carries the field declarations (name, exportedness, type) next
  to the field values;
* `vmap` carries its entries as an association list in iteration order
  (Go's map iteration order is unspecified; the model fixes one);
* `viface` is a value of static type `interface{}`: `none` is the nil
  interface, `some v` wraps the dynamic value `v`. -/
inductive GoValue where
  | invalid
  | vint (n : Int)
  | vstring (s : String)
  | vbool (b : Bool)
  | vfloat (f : GoFloat)
  | vnilptr (elem : GoType)
  | vptr (addr : Nat) (elem : GoType) (pointee : GoValue)
  | varray (elem : GoType) (elems : List GoValue)
  | vslice (elem : GoType) (elems : List GoValue)
  | vstruct (name : String) (ftypes : List (String × Bool × GoType)) (fvals : List GoValue)
  | vmap (key elem : GoType) (entries : List (GoValue × GoValue))
  | viface (dyn : Option GoValue)

/-- `reflect.Value.Type`: `none` models the panic
"call of reflect.Value.Type on zero Value". -/
def GoValue.typeOf : GoValue → Option GoType
  | .invalid => none
  | .vint _ => some .int
  | .vstring _ => some .string
  | .vbool _ => some .bool
  | .vfloat _ => some .float
  | .vnilptr t => some (.ptr t)
  | .vptr _ t _ => some (.ptr t)
  | .varray t es => some (.array es.length t)
  | .vslice t _ => some (.slice t)
  | .vstruct n fts _ => some (.struct n fts)
  | .vmap k v _ => some (.map k v)
  | .viface _ => some .iface

/-- IEEE `==` on `float64`: `NaN` is not equal to anything, itself included. -/
def GoFloat.goeq : GoFloat → GoFloat → Bool
  | .num a, .num b => a == b
  | _, _ => false

mutual

/-- Equality of represented values, modelling Go map key equality (the
`==` of the key type, as `MapIndex` applies it): floats compare under IEEE
`==`, so a `NaN` key never matches — not even itself — exactly as a `NaN`
key is unfindable in a Go map; everywhere else keys of a well-formed
(comparable-keyed) map compare structurally, unexported struct fields
included. -/
def GoValue.beq : GoValue → GoValue → Bool
  | .invalid, .invalid => true
  | .vint a, .vint b => a == b
  | .vstring a, .vstring b => a == b
  | .vbool a, .vbool b => a == b
  | .vfloat a, .vfloat b => a.goeq b
  | .vnilptr t, .vnilptr t' => GoType.beq t t'
  | .vptr a t v, .vptr a' t' v' => a == a' && GoType.beq t t' && GoValue.beq v v'
  | .varray t es, .varray t' es' => GoType.beq t t' && GoValue.beqList es es'
  | .vslice t es, .vslice t' es' => GoType.beq t t' && GoValue.beqList es es'
  | .vstruct n fts vs, .vstruct n' fts' vs' =>
    n == n' && GoType.beqFields fts fts' && GoValue.beqList vs vs'
  | .vmap k v es, .vmap k' v' es' =>
    GoType.beq k k' && GoType.beq v v' && GoValue.beqEntries es es'
  | .viface none, .viface none => true
  | .viface (some x), .viface (some y) => GoValue.beq x y
  | _, _ => false

def GoValue.beqList : List GoValue → List GoValue → Bool
  | [], [] => true
  | x :: xs, y :: ys => GoValue.beq x y && GoValue.beqList xs ys
  | _, _ => false

def GoValue.beqEntries : List (GoValue × GoValue) → List (GoValue × GoValue) → Bool
  | [], [] => true
  | (k, v) :: xs, (k', v') :: ys => GoValue.beq k k' && GoValue.beq v v' && GoValue.beqEntries xs ys
  | _, _ => false

end

mutual

/-- Go `==` applied to two operands of the same static type, as it is
reached from the `default:` arm of `matchesValues`
(`expected.Interface() == actual.Interface()`).  `Except.error ()` models
the run-time panic "comparing uncomparable type" raised when two interface
operands carry the same uncomparable dynamic type; the catch-all arms are
junk states that a same-static-type comparison never reaches. -/
def goEq : GoValue → GoValue → Except Unit Bool
  | .vint a, .vint b => .ok (a == b)
  | .vstring a, .vstring b => .ok (a == b)
  | .vbool a, .vbool b => .ok (a == b)
  | .vfloat a, .vfloat b => .ok (a.goeq b)
  | .vnilptr _, .vnilptr _ => .ok true
  | .vnilptr _, .vptr _ _ _ => .ok false
  | .vptr _ _ _, .vnilptr _ => .ok false
  | .vptr a _ _, .vptr b _ _ => .ok (a == b)
  | .varray _ es, .varray _ fs => goEqList es fs
  | .vstruct _ _ vs, .vstruct _ _ ws => goEqList vs ws
  | .viface none, .viface none => .ok true
  | .viface none, .viface (some _) => .ok false
  | .viface (some _), .viface none => .ok false
  | .viface (some x), .viface (some y) =>
    match x.typeOf, y.typeOf with
    | some tx, some ty =>
      if GoType.beq tx ty then
        if tx.comparable then goEq x y else .error ()
      else .ok false
    | _, _ => .error ()
  | _, _ => .error ()

def goEqList : List GoValue → List GoValue → Except Unit Bool
  | [], [] => .ok true
  | x :: xs, y :: ys =>
    match goEq x y with
    | .error () => .error ()
    | .ok false => .ok false
    | .ok true => goEqList xs ys
  | _, _ => .error ()

end

/-- Association-list lookup, modelling `actual.MapIndex(key)`:
`none` is the zero `reflect.Value` returned on a missing key. -/
def lookupEntry : List (GoValue × GoValue) → GoValue → Option GoValue
  | [], _ => none
  | (k, v) :: rest, key => if GoValue.beq k key then some v else lookupEntry rest key

theorem lookupEntry_sizeOf (as : List (GoValue × GoValue)) (k w : GoValue)
    (h : lookupEntry as k = some w) : sizeOf w < sizeOf as := by
  induction as with
  | nil => simp [lookupEntry] at h
  | cons hd tl ih =>
    obtain ⟨k', v'⟩ := hd
    simp only [lookupEntry] at h
    split at h
    · cases h; simp; omega
    · have := ih h
      simp
      omega

mutual

/-- `matchesValues` (src/match.go lines 49–102), entry: the type test
`expected.Type() != actual.Type()` panics when either operand is the zero
`Value` (Go evaluates both method calls); on unequal types the verdict is
`false`; on equal types the kind switch `matchesKind` runs. -/
def matchesValues (e a : GoValue) : Except Unit Bool :=
  match e.typeOf, a.typeOf with
  | none, _ => .error ()
  | some _, none => .error ()
  | some te, some ta =>
    if !GoType.beq te ta then .ok false
    else matchesKind e a
termination_by (sizeOf e + sizeOf a, 1)

/-- The `switch expected.Kind()` of `matchesValues`: `Ptr`,
`Array`/`Slice` (fallthrough), `Struct`, `Map`, and the `default:` arm
`expected.Interface() == actual.Interface()`.  Only called with
`e` and `a` of equal types; the pair arms that cannot occur then
delegate to `goEq`'s junk result. -/
def matchesKind (e a : GoValue) : Except Unit Bool :=
  match e, a with
  | .vnilptr _, .vnilptr _ => .ok true
  | .vnilptr _, .vptr _ _ _ => .ok false
  | .vptr _ _ _, .vnilptr _ => .ok false
  | .vptr _ _ pe, .vptr _ _ pa => matchesValues pe pa
  | .varray _ es, .varray _ as =>
    if es.length != as.length then .ok false else seqLoop es as []
  | .vslice _ es, .vslice _ as =>
    if es.length != as.length then .ok false else seqLoop es as []
  | .vstruct _ fts vs, .vstruct _ _ ws => structLoop fts vs ws
  | .vmap _ _ es, .vmap _ _ as => mapLoop es as
  | e, a => goEq e a
termination_by (sizeOf e + sizeOf a, 0)

/-- The outer loop of the `Array`/`Slice` case: the loop over `expected`'s
elements, threading the `used` set of consumed `actual` indices. -/
def seqLoop (es as : List GoValue) (used : List Nat) : Except Unit Bool :=
  match es with
  | [] => .ok true
  | e :: rest =>
    match findIdx e as used 0 with
    | .error () => .error ()
    | .ok none => .ok false
    | .ok (some j) => seqLoop rest as (j :: used)
termination_by (sizeOf es + sizeOf as, 0)

/-- The inner loop of the `Array`/`Slice` case: scan `actual`'s elements in
order (`j` is the running index), skipping consumed indices, for the first
one that recursively matches `e`. -/
def findIdx (e : GoValue) (as : List GoValue) (used : List Nat) (j : Nat) :
    Except Unit (Option Nat) :=
  match as with
  | [] => .ok none
  | a :: rest =>
    if j ∈ used then findIdx e rest used (j + 1)
    else
      match matchesValues e a with
      | .error () => .error ()
      | .ok true => .ok (some j)
      | .ok false => findIdx e rest used (j + 1)
termination_by (sizeOf e + sizeOf as, 0)

/-- The `Struct` case: loop over the fields, skipping unexported ones
(`PkgPath != ""`, i.e. `exported? = false`), recursing on corresponding
field values. -/
def structLoop (fts : List (String × Bool × GoType)) (vs ws : List GoValue) :
    Except Unit Bool :=
  match fts, vs, ws with
  | (_, ex, _) :: fts', v :: vs', w :: ws' =>
    if ex then
      match matchesValues v w with
      | .error () => .error ()
      | .ok false => .ok false
      | .ok true => structLoop fts' vs' ws'
    else structLoop fts' vs' ws'
  | _, _, _ => .ok true
termination_by (sizeOf vs + sizeOf ws, 0)

/-- The `Map` case: loop over `expected`'s keys, comparing
`expected.MapIndex(key)` (the entry's own value) against
`actual.MapIndex(key)` (a lookup that yields the zero `Value` on a miss,
on which the recursive call's `Type()` panics). -/
def mapLoop (es as : List (GoValue × GoValue)) : Except Unit Bool :=
  match es with
  | [] => .ok true
  | (k, v) :: rest =>
    match matchesValues v ((lookupEntry as k).getD .invalid) with
    | .error () => .error ()
    | .ok false => .ok false
    | .ok true => mapLoop rest as
termination_by (sizeOf es + sizeOf as, 0)
decreasing_by
  all_goals
  have hlk : sizeOf ((lookupEntry as k).getD GoValue.invalid) ≤ sizeOf as := by
    cases hl : lookupEntry as k with
    | none =>
      simp only [hl, Option.getD_none]
      cases as
      · simp
      · simp; omega
    | some w => simpa [hl] using (lookupEntry_sizeOf as k w hl).le
  all_goals simp_wf
  all_goals omega

end

/-- `Matches` (src/match.go lines 44–46): `reflect.ValueOf` of an
`interface{}` argument yields the dynamic value — or the zero `Value`
(our `GoValue.invalid`) when the argument is `nil` — so on our
representation of dynamic values `Matches` is `matchesValues` itself. -/
def Matches (expected actual : GoValue) : Except Unit Bool :=
  matchesValues expected actual

mutual

theorem GoType.beq_refl : ∀ t : GoType, GoType.beq t t = true
  | .int => by simp [GoType.beq]
  | .string => by simp [GoType.beq]
  | .bool => by simp [GoType.beq]
  | .float => by simp [GoType.beq]
  | .ptr a => by simp [GoType.beq, GoType.beq_refl a]
  | .array n a => by simp [GoType.beq, GoType.beq_refl a]
  | .slice a => by simp [GoType.beq, GoType.beq_refl a]
  | .struct n fs => by simp [GoType.beq, GoType.beqFields_refl fs]
  | .map k v => by simp [GoType.beq, GoType.beq_refl k, GoType.beq_refl v]
  | .iface => by simp [GoType.beq]

theorem GoType.beqFields_refl : ∀ fs, GoType.beqFields fs fs = true
  | [] => by simp [GoType.beqFields]
  | (n, e, t) :: fs => by
    simp [GoType.beqFields, GoType.beq_refl t, GoType.beqFields_refl fs]

end

mutual

theorem GoType.eq_of_beq : ∀ s t : GoType, GoType.beq s t = true → s = t
  | .int, t, h => by
    cases t <;> simp only [GoType.beq, reduceCtorEq] at h
    rfl
  | .string, t, h => by
    cases t <;> simp only [GoType.beq, reduceCtorEq] at h
    rfl
  | .bool, t, h => by
    cases t <;> simp only [GoType.beq, reduceCtorEq] at h
    rfl
  | .float, t, h => by
    cases t <;> simp only [GoType.beq, reduceCtorEq] at h
    rfl
  | .iface, t, h => by
    cases t <;> simp only [GoType.beq, reduceCtorEq] at h
    rfl
  | .ptr a, t, h => by
    cases t <;> simp only [GoType.beq, reduceCtorEq] at h
    rw [GoType.eq_of_beq a _ h]
  | .array n a, t, h => by
    cases t <;> simp only [GoType.beq, Bool.and_eq_true, beq_iff_eq, reduceCtorEq] at h
    rw [h.1, GoType.eq_of_beq a _ h.2]
  | .slice a, t, h => by
    cases t <;> simp only [GoType.beq, reduceCtorEq] at h
    rw [GoType.eq_of_beq a _ h]
  | .struct n fs, t, h => by
    cases t <;> simp only [GoType.beq, Bool.and_eq_true, beq_iff_eq, reduceCtorEq] at h
    rw [h.1, GoType.eqFields_of_beqFields fs _ h.2]
  | .map k v, t, h => by
    cases t <;> simp only [GoType.beq, Bool.and_eq_true, reduceCtorEq] at h
    rw [GoType.eq_of_beq k _ h.1, GoType.eq_of_beq v _ h.2]

theorem GoType.eqFields_of_beqFields :
    ∀ fs gs, GoType.beqFields fs gs = true → fs = gs
  | [], gs, h => by
    cases gs with
    | nil => rfl
    | cons g gs' => simp only [GoType.beqFields, reduceCtorEq] at h
  | (n, e, t) :: fs, gs, h => by
    cases gs with
    | nil => simp only [GoType.beqFields, reduceCtorEq] at h
    | cons g gs' =>
      obtain ⟨n', e', t'⟩ := g
      simp only [GoType.beqFields, Bool.and_eq_true, beq_iff_eq] at h
      obtain ⟨⟨⟨h1, h2⟩, h3⟩, h4⟩ := h
      rw [h1, h2, GoType.eq_of_beq t _ h3, GoType.eqFields_of_beqFields fs _ h4]

end

theorem GoType.beq_iff (s t : GoType) : GoType.beq s t = true ↔ s = t :=
  ⟨GoType.eq_of_beq s t, fun h => h ▸ GoType.beq_refl s⟩

/-! ### Unfolding lemmas for `matchesValues` -/

theorem matchesValues_invalid_left (a : GoValue) : matchesValues .invalid a = .error () := by
  simp [matchesValues, GoValue.typeOf]

theorem matchesValues_invalid_right (e : GoValue) : matchesValues e .invalid = .error () := by
  rw [matchesValues]
  cases h : e.typeOf <;> rfl

theorem matchesValues_type_mismatch (e a : GoValue) (te ta : GoType)
    (he : e.typeOf = some te) (ha : a.typeOf = some ta) (hne : te ≠ ta) :
    matchesValues e a = .ok false := by
  have hbeq : GoType.beq te ta = false := by
    rw [← Bool.not_eq_true, GoType.beq_iff]
    exact hne
  rw [matchesValues]
  rw [he, ha]
  simp [hbeq]

theorem matchesValues_nil_nil (t : GoType) :
    matchesValues (.vnilptr t) (.vnilptr t) = .ok true := by
  simp [matchesValues, matchesKind, GoValue.typeOf, GoType.beq_refl]

theorem matchesValues_nil_ptr (t : GoType) (a : Nat) (v : GoValue) :
    matchesValues (.vnilptr t) (.vptr a t v) = .ok false := by
  simp [matchesValues, matchesKind, GoValue.typeOf, GoType.beq_refl]

theorem matchesValues_ptr_nil (t : GoType) (a : Nat) (v : GoValue) :
    matchesValues (.vptr a t v) (.vnilptr t) = .ok false := by
  simp [matchesValues, matchesKind, GoValue.typeOf, GoType.beq_refl]

theorem matchesValues_ptr_ptr (t : GoType) (a b : Nat) (v w : GoValue) :
    matchesValues (.vptr a t v) (.vptr b t w) = matchesValues v w := by
  rw [matchesValues]
  simp [matchesKind, GoValue.typeOf, GoType.beq_refl]

theorem matchesValues_int (m n : Int) :
    matchesValues (.vint m) (.vint n) = .ok (m == n) := by
  rw [matchesValues]
  simp [matchesKind, GoValue.typeOf, GoType.beq, goEq]

theorem matchesValues_string (s u : String) :
    matchesValues (.vstring s) (.vstring u) = .ok (s == u) := by
  rw [matchesValues]
  simp [matchesKind, GoValue.typeOf, GoType.beq, goEq]

theorem matchesValues_slice (t : GoType) (es as : List GoValue) :
    matchesValues (.vslice t es) (.vslice t as) =
      if es.length ≠ as.length then .ok false else seqLoop es as [] := by
  rw [matchesValues]
  simp only [GoValue.typeOf, GoType.beq_refl, GoType.beq, Bool.not_true, Bool.false_eq_true,
    if_false, matchesKind, bne_iff_ne, ne_eq, ite_not]

/-! ### C7 and C8 -/

/-- C7: whenever the two operands have different runtime types at the
current node, `matchesValues` returns `false` immediately, whatever the
values; in particular `Matches(int(1), "1")` is `false`. -/
theorem claim_C7_type_mismatch :
    (∀ (e a : GoValue) (te ta : GoType), e.typeOf = some te → a.typeOf = some ta →
      te ≠ ta → matchesValues e a = .ok false) ∧
    Matches (.vint 1) (.vstring "1") = .ok false :=
  ⟨matchesValues_type_mismatch, by
    exact matchesValues_type_mismatch _ _ .int .string rfl rfl (fun h => by cases h)⟩

/-- Witness for C7 at a concrete input. -/
theorem claim_C7_witness :
    matchesValues (.vbool true) (.vint 0) = .ok false :=
  claim_C7_type_mismatch.1 (.vbool true) (.vint 0) .bool .int rfl rfl (fun h => by cases h)

/-- C8: same-typed pointers: both nil match; exactly one nil does not
match; two non-nil pointers are compared by recursing into the pointees
(the addresses are irrelevant). -/
theorem claim_C8_pointers :
    (∀ t : GoType, matchesValues (.vnilptr t) (.vnilptr t) = .ok true) ∧
    (∀ (t : GoType) (a : Nat) (v : GoValue),
      matchesValues (.vnilptr t) (.vptr a t v) = .ok false) ∧
    (∀ (t : GoType) (a : Nat) (v : GoValue),
      matchesValues (.vptr a t v) (.vnilptr t) = .ok false) ∧
    (∀ (t : GoType) (a b : Nat) (v w : GoValue),
      matchesValues (.vptr a t v) (.vptr b t w) = matchesValues v w) :=
  ⟨matchesValues_nil_nil, matchesValues_nil_ptr, matchesValues_ptr_nil, matchesValues_ptr_ptr⟩

/-! ### C1: unordered multiset matching for sequences

`specSeq` below is the specification-side formulation of the spec's words
("for each element of `expected`, in order, search the elements of
`actual` not yet consumed by an earlier match, in their original order,
for the first one that structurally matches; on success mark that index
consumed"), phrased by removing the first matching element from the list
of still-unconsumed `actual` elements.  `seqLoop`/`findIdx` is the
code-side index-and-used-set loop; the bridge theorems prove them equal. -/

/-- Remove the first element of `as` that recursively matches `e`
(panic propagates; `none` when no element matches). -/
def removeFirstMatch (e : GoValue) : List GoValue → Except Unit (Option (List GoValue))
  | [] => .ok none
  | a :: rest =>
    match matchesValues e a with
    | .error () => .error ()
    | .ok true => .ok (some rest)
    | .ok false =>
      match removeFirstMatch e rest with
      | .error () => .error ()
      | .ok none => .ok none
      | .ok (some rest') => .ok (some (a :: rest'))

/-- Greedy first-fit multiset matching, the spec's description of the
`Array`/`Slice` case once the lengths are known equal. -/
def specSeq : List GoValue → List GoValue → Except Unit Bool
  | [], _ => .ok true
  | e :: es, as =>
    match removeFirstMatch e as with
    | .error () => .error ()
    | .ok none => .ok false
    | .ok (some as') => specSeq es as'

/-- The sublist of `as` whose (`j0`-based) indices are not in `used`. -/
def filterIdx (as : List GoValue) (used : List Nat) (j0 : Nat) : List GoValue :=
  match as with
  | [] => []
  | a :: rest =>
    if j0 ∈ used then filterIdx rest used (j0 + 1) else a :: filterIdx rest used (j0 + 1)

theorem filterIdx_nil_used (as : List GoValue) (j0 : Nat) : filterIdx as [] j0 = as := by
  induction as generalizing j0 with
  | nil => rfl
  | cons a rest ih => simp [filterIdx, ih]

theorem filterIdx_cons_lt (as : List GoValue) (used : List Nat) (j j0 : Nat)
    (h : j < j0) : filterIdx as (j :: used) j0 = filterIdx as used j0 := by
  induction as generalizing j0 with
  | nil => rfl
  | cons a rest ih =>
    have hne : j0 ≠ j := by omega
    simp only [filterIdx, List.mem_cons, hne]
    rw [ih (j0 + 1) (by omega)]
    simp

theorem findIdx_some_le (e : GoValue) (as : List GoValue) (used : List Nat) (j0 j : Nat)
    (h : findIdx e as used j0 = .ok (some j)) : j0 ≤ j ∧ j ∉ used := by
  induction as generalizing j0 with
  | nil => rw [findIdx] at h; cases h
  | cons a rest ih =>
    rw [findIdx] at h
    split at h
    · have := ih (j0 + 1) h
      exact ⟨by omega, this.2⟩
    · rename_i hju
      split at h
      · cases h
      · cases h
        exact ⟨le_refl _, hju⟩
      · have := ih (j0 + 1) h
        exact ⟨by omega, this.2⟩

/-- Correspondence between the code's inner scan (`findIdx`) and the
spec's removal of the first matching unconsumed element. -/
theorem findIdx_removeFirst (e : GoValue) (as : List GoValue) (used : List Nat) (j0 : Nat) :
    (findIdx e as used j0 = .error () ∧
      removeFirstMatch e (filterIdx as used j0) = .error ()) ∨
    (findIdx e as used j0 = .ok none ∧
      removeFirstMatch e (filterIdx as used j0) = .ok none) ∨
    (∃ j, findIdx e as used j0 = .ok (some j) ∧
      removeFirstMatch e (filterIdx as used j0) =
        .ok (some (filterIdx as (j :: used) j0))) := by
  induction as generalizing j0 with
  | nil =>
    right; left
    constructor
    · rw [findIdx]
    · simp [filterIdx, removeFirstMatch]
  | cons a rest ih =>
    by_cases hj : j0 ∈ used
    · -- index j0 already consumed: both sides skip `a`
      rw [findIdx, if_pos hj]
      rw [show filterIdx (a :: rest) used j0 = filterIdx rest used (j0 + 1) from by
        simp [filterIdx, hj]]
      rcases ih (j0 + 1) with ⟨h1, h2⟩ | ⟨h1, h2⟩ | ⟨j, h1, h2⟩
      · exact .inl ⟨h1, h2⟩
      · exact .inr (.inl ⟨h1, h2⟩)
      · refine .inr (.inr ⟨j, h1, ?_⟩)
        rw [h2]
        have hjj : j0 ∈ j :: used := by simp [hj]
        rw [show filterIdx (a :: rest) (j :: used) j0 = filterIdx rest (j :: used) (j0 + 1)
          from by simp [filterIdx, hjj]]
    · -- index j0 unconsumed: both sides examine `a` first
      rw [findIdx, if_neg hj]
      rw [show filterIdx (a :: rest) used j0 = a :: filterIdx rest used (j0 + 1) from by
        simp [filterIdx, hj]]
      rw [removeFirstMatch]
      cases hm : matchesValues e a with
      | error u =>
        cases u
        exact .inl ⟨rfl, rfl⟩
      | ok b =>
        cases b
        · -- no match on `a`: recurse
          rcases ih (j0 + 1) with ⟨h1, h2⟩ | ⟨h1, h2⟩ | ⟨j, h1, h2⟩
          · exact .inl ⟨h1, by rw [h2]⟩
          · exact .inr (.inl ⟨h1, by rw [h2]⟩)
          · refine .inr (.inr ⟨j, h1, ?_⟩)
            rw [h2]
            have hle := findIdx_some_le e rest used (j0 + 1) j h1
            have hne : j0 ≠ j := by omega
            have hjj : j0 ∉ j :: used := by simp [hne, hj]
            rw [show filterIdx (a :: rest) (j :: used) j0 =
              a :: filterIdx rest (j :: used) (j0 + 1) from by simp [filterIdx, hjj]]
        · -- `a` matches: consumed index is j0
          refine .inr (.inr ⟨j0, rfl, ?_⟩)
          have hjj : j0 ∈ j0 :: used := by simp
          rw [show filterIdx (a :: rest) (j0 :: used) j0 =
            filterIdx rest (j0 :: used) (j0 + 1) from by simp [filterIdx, hjj]]
          rw [filterIdx_cons_lt rest used j0 (j0 + 1) (by omega)]

/-- The code's outer loop equals the spec's greedy matching on the
still-unconsumed elements. -/
theorem seqLoop_specSeq (es : List GoValue) :
    ∀ (as : List GoValue) (used : List Nat),
      seqLoop es as used = specSeq es (filterIdx as used 0) := by
  induction es with
  | nil => intro as used; rw [seqLoop, specSeq]
  | cons e rest ih =>
    intro as used
    rw [seqLoop, specSeq]
    rcases findIdx_removeFirst e as used 0 with ⟨h1, h2⟩ | ⟨h1, h2⟩ | ⟨j, h1, h2⟩ <;>
      rw [h1, h2]
    exact ih as (j :: used)

theorem matchesValues_array_eqlen (t : GoType) (es as : List GoValue)
    (h : es.length = as.length) :
    matchesValues (.varray t es) (.varray t as) = seqLoop es as [] := by
  rw [matchesValues]
  simp [GoValue.typeOf, h, GoType.beq_refl, matchesKind]

/-- C1: for same-typed sequences, unequal lengths give `false`
(for arrays already via the type test, since the length is part of the
type); equal lengths run greedy first-fit multiset matching (`specSeq`),
and the spec's four examples compute as stated. -/
theorem claim_C1_sequences :
    (∀ (t : GoType) (es as : List GoValue), es.length ≠ as.length →
      matchesValues (.vslice t es) (.vslice t as) = .ok false) ∧
    (∀ (t : GoType) (es as : List GoValue), es.length = as.length →
      matchesValues (.vslice t es) (.vslice t as) = specSeq es as) ∧
    (∀ (t : GoType) (es as : List GoValue), es.length ≠ as.length →
      matchesValues (.varray t es) (.varray t as) = .ok false) ∧
    (∀ (t : GoType) (es as : List GoValue), es.length = as.length →
      matchesValues (.varray t es) (.varray t as) = specSeq es as) ∧
    Matches (.vslice .int [.vint 1, .vint 2, .vint 3])
      (.vslice .int [.vint 3, .vint 1, .vint 2]) = .ok true ∧
    Matches (.vslice .int [.vint 1, .vint 2, .vint 2])
      (.vslice .int [.vint 2, .vint 1, .vint 2]) = .ok true ∧
    Matches (.vslice .int [.vint 1, .vint 2, .vint 2])
      (.vslice .int [.vint 1, .vint 2, .vint 3]) = .ok false ∧
    Matches (.vslice .int [.vint 1, .vint 2])
      (.vslice .int [.vint 1, .vint 2, .vint 3]) = .ok false := by
  have hslice_ne : ∀ (t : GoType) (es as : List GoValue), es.length ≠ as.length →
      matchesValues (.vslice t es) (.vslice t as) = .ok false := by
    intro t es as h
    rw [matchesValues_slice, if_pos h]
  have hslice_eq : ∀ (t : GoType) (es as : List GoValue), es.length = as.length →
      matchesValues (.vslice t es) (.vslice t as) = specSeq es as := by
    intro t es as h
    rw [matchesValues_slice, if_neg (by omega), seqLoop_specSeq, filterIdx_nil_used]
  refine ⟨hslice_ne, hslice_eq, ?_, ?_, ?_, ?_, ?_, ?_⟩
  · intro t es as h
    exact matchesValues_type_mismatch _ _ _ _ rfl rfl
      (fun hc => by injection hc with h1 h2; exact h h1)
  · intro t es as h
    rw [matchesValues_array_eqlen t es as h, seqLoop_specSeq, filterIdx_nil_used]
  · rw [Matches, hslice_eq .int [.vint 1, .vint 2, .vint 3] [.vint 3, .vint 1, .vint 2] rfl]
    simp [specSeq, removeFirstMatch, matchesValues_int]
  · rw [Matches, hslice_eq .int [.vint 1, .vint 2, .vint 2] [.vint 2, .vint 1, .vint 2] rfl]
    simp [specSeq, removeFirstMatch, matchesValues_int]
  · rw [Matches, hslice_eq .int [.vint 1, .vint 2, .vint 2] [.vint 1, .vint 2, .vint 3] rfl]
    simp [specSeq, removeFirstMatch, matchesValues_int]
  · rw [Matches, hslice_ne .int [.vint 1, .vint 2] [.vint 1, .vint 2, .vint 3] (by simp)]

/-- Witness for C1 at concrete inputs. -/
theorem claim_C1_witness :
    matchesValues (.vslice .bool [.vbool true]) (.vslice .bool []) = .ok false ∧
    matchesValues (.varray .int [.vint 5]) (.varray .int [.vint 5]) =
      specSeq [.vint 5] [.vint 5] :=
  ⟨claim_C1_sequences.1 .bool [.vbool true] [] (by simp),
   claim_C1_sequences.2.2.2.1 .int [.vint 5] [.vint 5] rfl⟩

/-! ### C3: map matching -/

theorem matchesValues_map (kt vt : GoType) (es as : List (GoValue × GoValue)) :
    matchesValues (.vmap kt vt es) (.vmap kt vt as) = mapLoop es as := by
  rw [matchesValues]
  simp [GoValue.typeOf, GoType.beq_refl, matchesKind]

theorem matchesValues_bool (x y : Bool) :
    matchesValues (.vbool x) (.vbool y) = .ok (x == y) := by
  rw [matchesValues]
  simp [matchesKind, GoValue.typeOf, GoType.beq, goEq]

theorem matchesValues_float (x y : GoFloat) :
    matchesValues (.vfloat x) (.vfloat y) = .ok (x.goeq y) := by
  rw [matchesValues]
  simp [matchesKind, GoValue.typeOf, GoType.beq, goEq]

theorem matchesValues_struct (n : String) (fts : List (String × Bool × GoType))
    (vs ws : List GoValue) :
    matchesValues (.vstruct n fts vs) (.vstruct n fts ws) = structLoop fts vs ws := by
  rw [matchesValues]
  simp [matchesKind, GoValue.typeOf, GoType.beq_refl, GoType.beq, GoType.beqFields_refl]

mutual

/-- Values on which `matchesValues` cannot panic (whatever the partner):
no invalid value, no map, no interface-typed component anywhere. -/
def PanicFree : GoValue → Bool
  | .invalid => false
  | .vint _ => true
  | .vstring _ => true
  | .vbool _ => true
  | .vfloat _ => true
  | .vnilptr _ => true
  | .vptr _ _ v => PanicFree v
  | .varray _ es => PanicFreeList es
  | .vslice _ es => PanicFreeList es
  | .vstruct _ _ vs => PanicFreeList vs
  | .vmap _ _ _ => false
  | .viface _ => false

def PanicFreeList : List GoValue → Bool
  | [] => true
  | v :: vs => PanicFree v && PanicFreeList vs

end

theorem panicFree_typeOf (v : GoValue) (h : PanicFree v = true) :
    ∃ t, v.typeOf = some t := by
  cases v <;> simp_all [PanicFree, GoValue.typeOf]

/-! Inversion of `typeOf`: which value shapes have a given type. -/

theorem typeOf_int_inv (a : GoValue) (h : a.typeOf = some .int) : ∃ n, a = .vint n := by
  cases a <;> simp_all [GoValue.typeOf]

theorem typeOf_string_inv (a : GoValue) (h : a.typeOf = some .string) :
    ∃ s, a = .vstring s := by
  cases a <;> simp_all [GoValue.typeOf]

theorem typeOf_bool_inv (a : GoValue) (h : a.typeOf = some .bool) : ∃ b, a = .vbool b := by
  cases a <;> simp_all [GoValue.typeOf]

theorem typeOf_float_inv (a : GoValue) (h : a.typeOf = some .float) : ∃ f, a = .vfloat f := by
  cases a <;> simp_all [GoValue.typeOf]

theorem typeOf_ptr_inv (a : GoValue) (t : GoType) (h : a.typeOf = some (.ptr t)) :
    a = .vnilptr t ∨ ∃ x w, a = .vptr x t w := by
  cases a <;> simp_all [GoValue.typeOf]

theorem typeOf_array_inv (a : GoValue) (n : Nat) (t : GoType)
    (h : a.typeOf = some (.array n t)) : ∃ as, a = .varray t as ∧ as.length = n := by
  cases a <;> simp_all [GoValue.typeOf]

theorem typeOf_slice_inv (a : GoValue) (t : GoType) (h : a.typeOf = some (.slice t)) :
    ∃ as, a = .vslice t as := by
  cases a <;> simp_all [GoValue.typeOf]

theorem typeOf_struct_inv (a : GoValue) (n : String) (fts : List (String × Bool × GoType))
    (h : a.typeOf = some (.struct n fts)) : ∃ ws, a = .vstruct n fts ws := by
  cases a <;> simp_all [GoValue.typeOf]

mutual

theorem matchesValues_panicFree (e a : GoValue)
    (he : PanicFree e = true) (ha : PanicFree a = true) :
    ∃ b, matchesValues e a = .ok b := by
  by_cases htype : e.typeOf = a.typeOf
  · cases e with
    | invalid => simp [PanicFree] at he
    | vmap k v es => simp [PanicFree] at he
    | viface d => simp [PanicFree] at he
    | vint n =>
      obtain ⟨m, rfl⟩ := typeOf_int_inv a (by rw [← htype]; rfl)
      exact ⟨_, matchesValues_int n m⟩
    | vstring s =>
      obtain ⟨u, rfl⟩ := typeOf_string_inv a (by rw [← htype]; rfl)
      exact ⟨_, matchesValues_string s u⟩
    | vbool b =>
      obtain ⟨c, rfl⟩ := typeOf_bool_inv a (by rw [← htype]; rfl)
      exact ⟨_, matchesValues_bool b c⟩
    | vfloat f =>
      obtain ⟨g, rfl⟩ := typeOf_float_inv a (by rw [← htype]; rfl)
      exact ⟨_, matchesValues_float f g⟩
    | vnilptr t =>
      rcases typeOf_ptr_inv a t (by rw [← htype]; rfl) with rfl | ⟨x, w, rfl⟩
      · exact ⟨true, matchesValues_nil_nil t⟩
      · exact ⟨false, matchesValues_nil_ptr t x w⟩
    | vptr x t v =>
      simp only [PanicFree] at he
      rcases typeOf_ptr_inv a t (by rw [← htype]; rfl) with rfl | ⟨y, w, rfl⟩
      · exact ⟨false, matchesValues_ptr_nil t x v⟩
      · simp only [PanicFree] at ha
        obtain ⟨b, hb⟩ := matchesValues_panicFree v w he ha
        exact ⟨b, by rw [matchesValues_ptr_ptr, hb]⟩
    | varray t es =>
      simp only [PanicFree] at he
      obtain ⟨as, rfl, hlen⟩ := typeOf_array_inv a es.length t (by rw [← htype]; rfl)
      simp only [PanicFree] at ha
      obtain ⟨b, hb⟩ := seqLoop_panicFree es as [] he ha
      exact ⟨b, by rw [matchesValues_array_eqlen t es as hlen.symm, hb]⟩
    | vslice t es =>
      simp only [PanicFree] at he
      obtain ⟨as, rfl⟩ := typeOf_slice_inv a t (by rw [← htype]; rfl)
      simp only [PanicFree] at ha
      by_cases hlen : es.length = as.length
      · obtain ⟨b, hb⟩ := seqLoop_panicFree es as [] he ha
        exact ⟨b, by rw [matchesValues_slice, if_neg (by omega), hb]⟩
      · exact ⟨false, by rw [matchesValues_slice, if_pos hlen]⟩
    | vstruct n fts vs =>
      simp only [PanicFree] at he
      obtain ⟨ws, rfl⟩ := typeOf_struct_inv a n fts (by rw [← htype]; rfl)
      simp only [PanicFree] at ha
      obtain ⟨b, hb⟩ := structLoop_panicFree fts vs ws he ha
      exact ⟨b, by rw [matchesValues_struct, hb]⟩
  · obtain ⟨te, hte⟩ := panicFree_typeOf e he
    obtain ⟨ta, hta⟩ := panicFree_typeOf a ha
    refine ⟨false, matchesValues_type_mismatch e a te ta hte hta ?_⟩
    intro hc
    exact htype (by rw [hte, hta, hc])
termination_by (sizeOf e + sizeOf a, 1)

theorem seqLoop_panicFree (es as : List GoValue) (used : List Nat)
    (he : PanicFreeList es = true) (ha : PanicFreeList as = true) :
    ∃ b, seqLoop es as used = .ok b := by
  cases es with
  | nil => exact ⟨true, by rw [seqLoop]⟩
  | cons e rest =>
    simp only [PanicFreeList, Bool.and_eq_true] at he
    obtain ⟨r, hr⟩ := findIdx_panicFree e as used 0 he.1 ha
    cases r with
    | none =>
      refine ⟨false, ?_⟩
      rw [seqLoop, hr]
    | some j =>
      obtain ⟨b, hb⟩ := seqLoop_panicFree rest as (j :: used) he.2 ha
      refine ⟨b, ?_⟩
      rw [seqLoop, hr]
      exact hb
termination_by (sizeOf es + sizeOf as, 0)

theorem findIdx_panicFree (e : GoValue) (as : List GoValue) (used : List Nat) (j : Nat)
    (he : PanicFree e = true) (ha : PanicFreeList as = true) :
    ∃ r, findIdx e as used j = .ok r := by
  cases as with
  | nil => exact ⟨none, by rw [findIdx]⟩
  | cons a rest =>
    simp only [PanicFreeList, Bool.and_eq_true] at ha
    by_cases hj : j ∈ used
    · obtain ⟨r, hr⟩ := findIdx_panicFree e rest used (j + 1) he ha.2
      refine ⟨r, ?_⟩
      rw [findIdx, if_pos hj]
      exact hr
    · obtain ⟨b, hb⟩ := matchesValues_panicFree e a he ha.1
      cases b with
      | true =>
        refine ⟨some j, ?_⟩
        rw [findIdx, if_neg hj, hb]
      | false =>
        obtain ⟨r, hr⟩ := findIdx_panicFree e rest used (j + 1) he ha.2
        refine ⟨r, ?_⟩
        rw [findIdx, if_neg hj, hb]
        exact hr
termination_by (sizeOf e + sizeOf as, 0)

theorem structLoop_panicFree (fts : List (String × Bool × GoType)) (vs ws : List GoValue)
    (hv : PanicFreeList vs = true) (hw : PanicFreeList ws = true) :
    ∃ b, structLoop fts vs ws = .ok b := by
  match fts, vs, ws with
  | [], vs, ws => exact ⟨true, by simp [structLoop]⟩
  | _ :: _, [], ws => exact ⟨true, by simp [structLoop]⟩
  | _ :: _, _ :: _, [] => exact ⟨true, by simp [structLoop]⟩
  | (nm, ex, t) :: fts', v :: vs', w :: ws' =>
    simp only [PanicFreeList, Bool.and_eq_true] at hv hw
    cases ex with
    | false =>
      obtain ⟨b, hb⟩ := structLoop_panicFree fts' vs' ws' hv.2 hw.2
      exact ⟨b, by simp only [structLoop, if_false, Bool.false_eq_true]; exact hb⟩
    | true =>
      obtain ⟨c, hc⟩ := matchesValues_panicFree v w hv.1 hw.1
      cases c with
      | false =>
        exact ⟨false, by simp only [structLoop, if_true]; rw [hc]⟩
      | true =>
        obtain ⟨b, hb⟩ := structLoop_panicFree fts' vs' ws' hv.2 hw.2
        refine ⟨b, ?_⟩
        simp only [structLoop, if_true]
        rw [hc]
        exact hb
termination_by (sizeOf vs + sizeOf ws, 0)

end

/-- The claim C2 is false on the code: `Matches(nil, nil)` panics —
`reflect.ValueOf(nil)` is the zero `Value` and `matchesValues` calls
`.Type()` on it. -/
theorem claim_C2_counterexample : Matches .invalid .invalid = .error () :=
  matchesValues_invalid_left .invalid

/-- C2 amended: `matchesValues` always terminates, but it can panic
rather than return a boolean (on nil-interface inputs, on map keys of
`expected` missing from `actual`, and on `==` applied to interface values
of an identical uncomparable dynamic type).  It returns a boolean on every
pair of inputs that contain no invalid value, no map and no
interface-typed component. -/
theorem claim_C2_no_panic (e a : GoValue)
    (he : PanicFree e = true) (ha : PanicFree a = true) :
    ∃ b, Matches e a = .ok b :=
  matchesValues_panicFree e a he ha

/-- Witness for C2 at a concrete input. -/
theorem claim_C2_witness :
    PanicFree (.vslice .int [.vint 1]) = true ∧
    ∃ b, Matches (.vslice .int [.vint 1]) (.vslice .int [.vint 2]) = .ok b :=
  ⟨by simp [PanicFree, PanicFreeList],
   claim_C2_no_panic (.vslice .int [.vint 1]) (.vslice .int [.vint 2])
     (by simp [PanicFree, PanicFreeList]) (by simp [PanicFree, PanicFreeList])⟩

mutual

/-- Values on which Go `==` with (a copy of) themselves is `true`:
no NaN anywhere, every interface-wrapped component of comparable dynamic
type; slices/maps/invalid excluded (uncomparable or unreachable). -/
def EqSafe : GoValue → Bool
  | .invalid => false
  | .vint _ => true
  | .vstring _ => true
  | .vbool _ => true
  | .vfloat f => match f with | .num _ => true | .nan => false
  | .vnilptr _ => true
  | .vptr _ _ _ => true
  | .varray _ es => EqSafeList es
  | .vslice _ _ => false
  | .vstruct _ _ vs => EqSafeList vs
  | .vmap _ _ _ => false
  | .viface none => true
  | .viface (some x) =>
    (match x.typeOf with | none => false | some t => t.comparable) && EqSafe x

def EqSafeList : List GoValue → Bool
  | [] => true
  | v :: vs => EqSafe v && EqSafeList vs

end

mutual

theorem goEq_refl : ∀ x : GoValue, EqSafe x = true → goEq x x = .ok true
  | .invalid, h => by simp [EqSafe] at h
  | .vint n, _ => by simp [goEq]
  | .vstring s, _ => by simp [goEq]
  | .vbool b, _ => by simp [goEq]
  | .vfloat f, h => by
    cases f with
    | num q => simp [goEq, GoFloat.goeq]
    | nan => simp [EqSafe] at h
  | .vnilptr t, _ => by simp [goEq]
  | .vptr a t v, _ => by simp [goEq]
  | .varray t es, h => by
    simp only [EqSafe] at h
    rw [goEq]
    exact goEqList_refl es h
  | .vslice t es, h => by simp [EqSafe] at h
  | .vstruct n fts vs, h => by
    simp only [EqSafe] at h
    rw [goEq]
    exact goEqList_refl vs h
  | .vmap k v es, h => by simp [EqSafe] at h
  | .viface none, _ => by simp [goEq]
  | .viface (some x), h => by
    simp only [EqSafe, Bool.and_eq_true] at h
    obtain ⟨h1, h2⟩ := h
    cases ht : x.typeOf with
    | none => rw [ht] at h1; simp at h1
    | some t =>
      rw [ht] at h1
      simp only at h1
      rw [goEq, ht]
      simp only [GoType.beq_refl, if_true, h1]
      exact goEq_refl x h2

theorem goEqList_refl : ∀ es : List GoValue, EqSafeList es = true → goEqList es es = .ok true
  | [], _ => by rw [goEqList]
  | v :: vs, h => by
    simp only [EqSafeList, Bool.and_eq_true] at h
    rw [goEqList, goEq_refl v h.1]
    exact goEqList_refl vs h.2

end

/-- Pairwise distinctness of the keys of a map's entry list (as Go map
entries are). -/
def keysDistinct : List (GoValue × GoValue) → Bool
  | [] => true
  | (k, _) :: rest => rest.all (fun p => !GoValue.beq k p.1) && keysDistinct rest

mutual

/-- Values on which `matchesValues v v = ok true` is provable: hereditarily
free of invalid values and NaN; interface-wrapped components comparable and
`EqSafe`; map keys pairwise distinct and each equal to itself under key
equality (a `NaN`-containing key never matches itself and so is excluded). -/
def ReflSafe : GoValue → Bool
  | .invalid => false
  | .vint _ => true
  | .vstring _ => true
  | .vbool _ => true
  | .vfloat f => match f with | .num _ => true | .nan => false
  | .vnilptr _ => true
  | .vptr _ _ v => ReflSafe v
  | .varray _ es => ReflSafeList es
  | .vslice _ es => ReflSafeList es
  | .vstruct _ _ vs => ReflSafeList vs
  | .vmap _ _ es => keysDistinct es && ReflSafeEntries es
  | .viface none => true
  | .viface (some x) =>
    (match x.typeOf with | none => false | some t => t.comparable) && EqSafe x

def ReflSafeList : List GoValue → Bool
  | [] => true
  | v :: vs => ReflSafe v && ReflSafeList vs

def ReflSafeEntries : List (GoValue × GoValue) → Bool
  | [] => true
  | (k, v) :: rest => GoValue.beq k k && ReflSafe v && ReflSafeEntries rest

end

theorem reflSafeList_mem (es : List GoValue) (h : ReflSafeList es = true) :
    ∀ e ∈ es, ReflSafe e = true := by
  induction es with
  | nil => simp
  | cons v vs ih =>
    simp only [ReflSafeList, Bool.and_eq_true] at h
    intro e he
    rcases List.mem_cons.mp he with rfl | hmem
    · exact h.1
    · exact ih h.2 e hmem

theorem reflSafeEntries_mem (es : List (GoValue × GoValue))
    (h : ReflSafeEntries es = true) : ∀ p ∈ es, ReflSafe p.2 = true := by
  induction es with
  | nil => simp
  | cons q rest ih =>
    obtain ⟨k, v⟩ := q
    simp only [ReflSafeEntries, Bool.and_eq_true] at h
    intro p hp
    rcases List.mem_cons.mp hp with rfl | hmem
    · exact h.1.2
    · exact ih h.2 p hmem

theorem reflSafeEntries_keys (es : List (GoValue × GoValue))
    (h : ReflSafeEntries es = true) : ∀ p ∈ es, GoValue.beq p.1 p.1 = true := by
  induction es with
  | nil => simp
  | cons q rest ih =>
    obtain ⟨k, v⟩ := q
    simp only [ReflSafeEntries, Bool.and_eq_true] at h
    intro p hp
    rcases List.mem_cons.mp hp with rfl | hmem
    · exact h.1.1
    · exact ih h.2 p hmem

/-- With pairwise-distinct, self-matching keys (under key equality —
this excludes `NaN` components, which Go map lookup would also miss),
looking an entry's own key up in the full list yields that entry's
value. -/
theorem lookupEntry_self (es : List (GoValue × GoValue)) (h : keysDistinct es = true)
    (hself : ∀ p ∈ es, GoValue.beq p.1 p.1 = true) :
    ∀ p ∈ es, lookupEntry es p.1 = some p.2 := by
  induction es with
  | nil => simp
  | cons q rest ih =>
    obtain ⟨k, v⟩ := q
    simp only [keysDistinct, Bool.and_eq_true, List.all_eq_true] at h
    intro p hp
    rcases List.mem_cons.mp hp with rfl | hmem
    · have hk := hself (k, v) (by simp)
      simp only at hk
      simp [lookupEntry, hk]
    · have hk : GoValue.beq k p.1 = false := by
        have := h.1 p hmem
        simpa using this
      rw [lookupEntry, hk]
      · exact ih h.2 (fun q hq => hself q (by simp [hq])) p hmem

/-- `[n-1, …, 1, 0]`: the `used` set after the first `n` expected elements
have each consumed their own index. -/
def usedUpTo : Nat → List Nat
  | 0 => []
  | n + 1 => n :: usedUpTo n

theorem mem_usedUpTo (j n : Nat) : j ∈ usedUpTo n ↔ j < n := by
  induction n with
  | zero => simp [usedUpTo]
  | succ m ih =>
    simp only [usedUpTo, List.mem_cons, ih]
    omega

/-- Scanning for a partner of `e` when the first `us.length` indices
(from `j0`) are consumed and `e` itself sits right after them: the scan
finds exactly that occurrence. -/
theorem findIdx_at (e : GoValue) (us tail : List GoValue) (used : List Nat) (j0 : Nat)
    (hm : matchesValues e e = .ok true)
    (h1 : ∀ i, i < us.length → (j0 + i) ∈ used)
    (h2 : ∀ j, j ∈ used → j < j0 + us.length) :
    findIdx e (us ++ e :: tail) used j0 = .ok (some (j0 + us.length)) := by
  induction us generalizing j0 with
  | nil =>
    have hj0 : j0 ∉ used := fun hj => by
      have := h2 j0 hj
      simp at this
    rw [List.nil_append, findIdx, if_neg hj0, hm]
    simp
  | cons u us' ih =>
    have hj0 : j0 ∈ used := by have := h1 0 (by simp); simpa using this
    rw [List.cons_append, findIdx, if_pos hj0]
    have := ih (j0 + 1) (fun i hi => by
        have := h1 (i + 1) (by simpa using Nat.succ_lt_succ hi)
        simpa [Nat.add_assoc, Nat.add_comm 1 i] using this)
      (fun j hj => by have := h2 j hj; simp at this ⊢; omega)
    rw [this]
    simp [List.length_cons]
    omega

/-- The outer loop on two identical lists, after the first `pre.length`
elements consumed their own indices, matches every remaining element with
its own occurrence. -/
theorem seqLoop_refl_aux (rest : List GoValue) :
    ∀ pre as, as = pre ++ rest → (∀ e ∈ as, matchesValues e e = .ok true) →
      seqLoop rest as (usedUpTo pre.length) = .ok true := by
  induction rest with
  | nil => intro pre as _ _; rw [seqLoop]
  | cons e rest' ih =>
    intro pre as heq hall
    subst heq
    have hfind := findIdx_at e pre rest' (usedUpTo pre.length) 0
      (hall e (by simp))
      (fun i hi => by simpa [mem_usedUpTo] using hi)
      (fun j hj => by simpa [mem_usedUpTo] using hj)
    rw [seqLoop]
    simp only [Nat.zero_add] at hfind
    rw [hfind]
    have husd : (pre.length :: usedUpTo pre.length) = usedUpTo (pre ++ [e]).length := by
      simp [usedUpTo]
    show seqLoop rest' (pre ++ e :: rest') (pre.length :: usedUpTo pre.length) = .ok true
    rw [husd]
    have happ : pre ++ e :: rest' = (pre ++ [e]) ++ rest' := by simp
    rw [happ] at hall ⊢
    exact ih (pre ++ [e]) ((pre ++ [e]) ++ rest') rfl hall

/-- The struct loop on twice the same field values is `true` when each
exported field matches itself. -/
theorem structLoop_refl_aux :
    ∀ (fts : List (String × Bool × GoType)) (vs : List GoValue),
      (∀ v ∈ vs, matchesValues v v = .ok true) → structLoop fts vs vs = .ok true
  | [], vs, _ => by simp [structLoop]
  | _ :: _, [], _ => by simp [structLoop]
  | (nm, ex, t) :: fts', v :: vs', hall => by
    have hv := hall v (by simp)
    have htail : ∀ w ∈ vs', matchesValues w w = .ok true :=
      fun w hw => hall w (by simp [hw])
    cases ex with
    | false =>
      simp only [structLoop, if_false, Bool.false_eq_true]
      exact structLoop_refl_aux fts' vs' htail
    | true =>
      simp only [structLoop, if_true]
      rw [hv]
      exact structLoop_refl_aux fts' vs' htail

/-- The map loop is `true` when each pending key looks up to its own value
and each value matches itself. -/
theorem mapLoop_refl_aux :
    ∀ (rest as : List (GoValue × GoValue)),
      (∀ p ∈ rest, lookupEntry as p.1 = some p.2) →
      (∀ p ∈ rest, matchesValues p.2 p.2 = .ok true) →
      mapLoop rest as = .ok true
  | [], as, _, _ => by rw [mapLoop]
  | (k, v) :: rest', as, hlook, hmatch => by
    have hk := hlook (k, v) (by simp)
    have hv := hmatch (k, v) (by simp)
    rw [mapLoop, hk]
    simp only [Option.getD_some]
    rw [hv]
    exact mapLoop_refl_aux rest' as (fun p hp => hlook p (by simp [hp]))
      (fun p hp => hmatch p (by simp [hp]))

theorem matchesValues_iface (d d' : Option GoValue) :
    matchesValues (.viface d) (.viface d') = goEq (.viface d) (.viface d') := by
  rw [matchesValues]
  simp [matchesKind, GoValue.typeOf, GoType.beq]

/-- Reflexivity of `matchesValues` on `ReflSafe` values. -/
theorem matchesValues_refl : ∀ v : GoValue, ReflSafe v = true → matchesValues v v = .ok true
  | .invalid, h => by simp [ReflSafe] at h
  | .vint n, _ => by simp [matchesValues_int]
  | .vstring s, _ => by simp [matchesValues_string]
  | .vbool b, _ => by simp [matchesValues_bool]
  | .vfloat f, h => by
    cases f with
    | num q => simp [matchesValues_float, GoFloat.goeq]
    | nan => simp [ReflSafe] at h
  | .vnilptr t, _ => matchesValues_nil_nil t
  | .vptr a t v, h => by
    rw [matchesValues_ptr_ptr]
    exact matchesValues_refl v (by simpa only [ReflSafe] using h)
  | .varray t es, h => by
    rw [matchesValues_array_eqlen t es es rfl]
    have hall : ∀ e ∈ es, matchesValues e e = .ok true := fun e hmem =>
      matchesValues_refl e (reflSafeList_mem es (by simpa only [ReflSafe] using h) e hmem)
    have hsq := seqLoop_refl_aux es [] es rfl hall
    simpa [usedUpTo] using hsq
  | .vslice t es, h => by
    rw [matchesValues_slice, if_neg (by omega)]
    have hall : ∀ e ∈ es, matchesValues e e = .ok true := fun e hmem =>
      matchesValues_refl e (reflSafeList_mem es (by simpa only [ReflSafe] using h) e hmem)
    have hsq := seqLoop_refl_aux es [] es rfl hall
    simpa [usedUpTo] using hsq
  | .vstruct n fts vs, h => by
    rw [matchesValues_struct]
    exact structLoop_refl_aux fts vs (fun v hmem =>
      matchesValues_refl v (reflSafeList_mem vs (by simpa only [ReflSafe] using h) v hmem))
  | .vmap kt vt es, h => by
    rw [matchesValues_map]
    have hh : keysDistinct es = true ∧ ReflSafeEntries es = true := by
      simpa only [ReflSafe, Bool.and_eq_true] using h
    exact mapLoop_refl_aux es es (lookupEntry_self es hh.1 (reflSafeEntries_keys es hh.2))
      (fun p hp => matchesValues_refl p.2 (reflSafeEntries_mem es hh.2 p hp))
  | .viface none, _ => by
    rw [matchesValues_iface]
    simp [goEq]
  | .viface (some x), h => by
    rw [matchesValues_iface]
    refine goEq_refl (.viface (some x)) ?_
    simp only [ReflSafe] at h
    simp only [EqSafe]
    exact h
termination_by v => sizeOf v
decreasing_by
  all_goals simp_wf
  all_goals
    first
    | (have hlt := List.sizeOf_lt_of_mem hmem
       omega)
    | (obtain ⟨pk, pv⟩ := p
       have hlt := List.sizeOf_lt_of_mem hp
       simp only [Prod.mk.sizeOf_spec] at hlt
       show sizeOf pv < 1 + sizeOf kt + sizeOf vt + sizeOf es
       omega)

/-- The claim C6 is false on the code, in two ways.  For
`v = []interface{}{[]int{1}}`, `Matches(v, v)` panics (the `default:` arm
compares two interface values of the identical uncomparable dynamic type
`[]int` with `==`) instead of returning `true`.  And for
`m = map[float64]int{NaN: 1}`, `Matches(m, m)` panics: the `NaN` key never
matches itself under `==`, so `actual.MapIndex` misses and the recursive
call panics on the zero `Value`. -/
theorem claim_C6_counterexample :
    Matches (.vslice .iface [.viface (some (.vslice .int [.vint 1]))])
      (.vslice .iface [.viface (some (.vslice .int [.vint 1]))]) = .error () ∧
    Matches (.vmap .float .int [(.vfloat .nan, .vint 1)])
      (.vmap .float .int [(.vfloat .nan, .vint 1)]) = .error () := by
  constructor
  · rw [Matches, matchesValues_slice, if_neg (by simp)]
    rw [seqLoop]
    have hfi : findIdx (GoValue.viface (some (.vslice .int [.vint 1])))
        [GoValue.viface (some (.vslice .int [.vint 1]))] [] 0 = .error () := by
      rw [findIdx, if_neg (by simp)]
      rw [matchesValues_iface]
      rw [show goEq (GoValue.viface (some (.vslice .int [.vint 1])))
          (GoValue.viface (some (.vslice .int [.vint 1]))) = .error () from by
        rw [goEq]
        simp [GoValue.typeOf, GoType.beq, GoType.comparable]]
    rw [hfi]
  · rw [Matches, matchesValues_map]
    simp [mapLoop, lookupEntry, GoValue.beq, GoFloat.goeq, matchesValues_invalid_right]

/-- C6 amended: `Matches(v, v)` is `true` for every `ReflSafe` value —
hereditarily free of invalid values and NaN floats, interface-wrapped
components of comparable dynamic type, map keys pairwise distinct and
self-matching under key equality (which excludes keys with a NaN
component).  In general reflexivity fails: it panics on interface-wrapped
uncomparable composites and on maps with NaN keys (see the
counterexample), and is `false` on a bare NaN. -/
theorem claim_C6_reflexivity (v : GoValue) (h : ReflSafe v = true) :
    Matches v v = .ok true :=
  matchesValues_refl v h

/-- Witness for C6 at a concrete input. -/
theorem claim_C6_witness :
    ReflSafe (.vmap .string .int [(.vstring "a", .vint 1), (.vstring "b", .vint 2)]) = true ∧
    Matches (.vmap .string .int [(.vstring "a", .vint 1), (.vstring "b", .vint 2)])
      (.vmap .string .int [(.vstring "a", .vint 1), (.vstring "b", .vint 2)]) = .ok true :=
  ⟨by simp [ReflSafe, ReflSafeEntries, keysDistinct, GoValue.beq],
   claim_C6_reflexivity _ (by simp [ReflSafe, ReflSafeEntries, keysDistinct, GoValue.beq])⟩

/-! ### C9: unexported struct fields -/

/-- Two field-value lists for the field declarations `fts` that agree on
every exported position (unexported positions are arbitrary). -/
inductive AgreeExp : List (String × Bool × GoType) → List GoValue → List GoValue → Prop
  | nil : AgreeExp [] [] []
  | consExp (nm : String) (t : GoType) {fts : List (String × Bool × GoType)}
      (v : GoValue) {vs vs' : List GoValue} :
      AgreeExp fts vs vs' → AgreeExp ((nm, true, t) :: fts) (v :: vs) (v :: vs')
  | consUnexp (nm : String) (t : GoType) {fts : List (String × Bool × GoType)}
      (v w : GoValue) {vs vs' : List GoValue} :
      AgreeExp fts vs vs' → AgreeExp ((nm, false, t) :: fts) (v :: vs) (w :: vs')

/-- The struct loop reads only exported positions: runs agreeing there are
indistinguishable (same verdict, including panics). -/
theorem structLoop_agreeExp {fts : List (String × Bool × GoType)}
    {vs vs' ws ws' : List GoValue}
    (h1 : AgreeExp fts vs vs') (h2 : AgreeExp fts ws ws') :
    structLoop fts vs ws = structLoop fts vs' ws' := by
  induction h1 generalizing ws ws' with
  | nil => cases h2; rfl
  | consExp nm t v h ih =>
    cases h2 with
    | consExp _ _ w h' =>
      simp only [structLoop, if_true]
      rw [ih h']
  | consUnexp nm t v w h ih =>
    cases h2 with
    | consUnexp _ _ x y h' =>
      simp only [structLoop, if_false, Bool.false_eq_true]
      exact ih h'

/-- A struct type with no exported field matches any same-typed struct. -/
theorem structLoop_all_unexported :
    ∀ (fts : List (String × Bool × GoType)) (vs ws : List GoValue),
      (∀ f ∈ fts, f.2.1 = false) → structLoop fts vs ws = .ok true
  | [], vs, ws, _ => by simp [structLoop]
  | _ :: _, [], ws, _ => by simp [structLoop]
  | _ :: _, _ :: _, [], _ => by simp [structLoop]
  | (nm, ex, t) :: fts', v :: vs', w :: ws', h => by
    have hex : ex = false := h (nm, ex, t) (by simp)
    subst hex
    simp only [structLoop, if_false, Bool.false_eq_true]
    exact structLoop_all_unexported fts' vs' ws' (fun f hf => h f (by simp [hf]))

/-- The claim C9 is false on the code as a two-run property: two `actual`
maps whose struct keys differ only in an unexported field value produce
different verdicts (`true` vs a panic), because map-key lookup uses full
Go equality, unexported fields included.  The struct-node comparison
itself does skip unexported fields (see `claim_C9_structs`). -/
theorem claim_C9_counterexample :
    AgreeExp [("u", false, GoType.int)] [.vint 1] [.vint 2] ∧
    Matches
      (.vmap (.struct "K" [("u", false, .int)]) .int
        [(.vstruct "K" [("u", false, .int)] [.vint 1], .vint 5)])
      (.vmap (.struct "K" [("u", false, .int)]) .int
        [(.vstruct "K" [("u", false, .int)] [.vint 1], .vint 5)]) = .ok true ∧
    Matches
      (.vmap (.struct "K" [("u", false, .int)]) .int
        [(.vstruct "K" [("u", false, .int)] [.vint 1], .vint 5)])
      (.vmap (.struct "K" [("u", false, .int)]) .int
        [(.vstruct "K" [("u", false, .int)] [.vint 2], .vint 5)]) = .error () := by
  refine ⟨.consUnexp "u" .int (.vint 1) (.vint 2) .nil, ?_, ?_⟩
  · rw [Matches, matchesValues_map]
    simp [mapLoop, lookupEntry, GoValue.beq, GoValue.beqList, GoType.beq, GoType.beqFields,
      matchesValues_int]
  · rw [Matches, matchesValues_map]
    simp [mapLoop, lookupEntry, GoValue.beq, GoValue.beqList, GoType.beq, GoType.beqFields,
      matchesValues_invalid_right]

/-- C9 amended: at a struct node only exported fields are compared —
the verdict (including whether it panics) depends only on the values at
exported positions, and a struct type with zero exported fields always
matches another value of the same type.  (As the counterexample shows,
this does not extend to struct values used as map keys, whose unexported
fields participate in key lookup.) -/
theorem claim_C9_structs :
    (∀ (n : String) (fts : List (String × Bool × GoType)) (vs vs' ws ws' : List GoValue),
      AgreeExp fts vs vs' → AgreeExp fts ws ws' →
      matchesValues (.vstruct n fts vs) (.vstruct n fts ws) =
        matchesValues (.vstruct n fts vs') (.vstruct n fts ws')) ∧
    (∀ (n : String) (fts : List (String × Bool × GoType)) (vs ws : List GoValue),
      (∀ f ∈ fts, f.2.1 = false) →
      matchesValues (.vstruct n fts vs) (.vstruct n fts ws) = .ok true) := by
  constructor
  · intro n fts vs vs' ws ws' h1 h2
    rw [matchesValues_struct, matchesValues_struct]
    exact structLoop_agreeExp h1 h2
  · intro n fts vs ws h
    rw [matchesValues_struct]
    exact structLoop_all_unexported fts vs ws h

/-- Witness for C9 at a concrete input: changing an unexported field value
(second field) does not change the verdict, and a zero-exported-fields
struct matches. -/
theorem claim_C9_witness :
    matchesValues
      (.vstruct "S" [("A", true, .int), ("b", false, .int)] [.vint 1, .vint 7])
      (.vstruct "S" [("A", true, .int), ("b", false, .int)] [.vint 1, .vint 8]) =
    matchesValues
      (.vstruct "S" [("A", true, .int), ("b", false, .int)] [.vint 1, .vint 9])
      (.vstruct "S" [("A", true, .int), ("b", false, .int)] [.vint 1, .vint 0]) ∧
    matchesValues (.vstruct "T" [("u", false, .bool)] [.vbool true])
      (.vstruct "T" [("u", false, .bool)] [.vbool false]) = .ok true :=
  ⟨claim_C9_structs.1 "S" [("A", true, .int), ("b", false, .int)]
      [.vint 1, .vint 7] [.vint 1, .vint 9] [.vint 1, .vint 8] [.vint 1, .vint 0]
      (.consExp "A" .int (.vint 1) (.consUnexp "b" .int (.vint 7) (.vint 9) .nil))
      (.consExp "A" .int (.vint 1) (.consUnexp "b" .int (.vint 8) (.vint 0) .nil)),
   claim_C9_structs.2 "T" [("u", false, .bool)] [.vbool true] [.vbool false]
      (by intro f hf; simp only [List.mem_singleton] at hf; subst hf; rfl)⟩

/-! ### The HTTP-response comparison (`MatchesHTTPResponse`)

`encoding/json.Unmarshal` and `ioutil.ReadAll` are external library calls;
`MatchesHTTPResponse` is therefore modelled parametrically in the
unmarshal function, and `jsonUnmarshal` below is a concrete model of
`json.Unmarshal` into `interface{}` used to evaluate examples. -/

def isWsChar (c : Char) : Bool :=
  c = ' ' || c = '\t' || c = '\n' || c = '\r'

def skipWs : List Char → List Char
  | [] => []
  | c :: rest => if isWsChar c then skipWs rest else c :: rest

def expectLit : List Char → List Char → Option (List Char)
  | [], input => some input
  | c :: cs, input =>
    match input with
    | d :: rest => if d = c then expectLit cs rest else none
    | [] => none

def hexVal (c : Char) : Option Nat :=
  if '0' ≤ c ∧ c ≤ '9' then some (c.toNat - '0'.toNat)
  else if 'a' ≤ c ∧ c ≤ 'f' then some (c.toNat - 'a'.toNat + 10)
  else if 'A' ≤ c ∧ c ≤ 'F' then some (c.toNat - 'A'.toNat + 10)
  else none

/-- Modelled from the spec: the string production of the textual
interchange format (JSON) as `encoding/json` reads it — the standard
escapes and `\uXXXX` (surrogate pairs not combined), control characters
rejected. -/
def parseStringBody : List Char → List Char → Option (String × List Char)
  | [], _ => none
  | c :: rest, acc =>
    if c = '"' then some (String.mk acc.reverse, rest)
    else if c = '\\' then
      match rest with
      | [] => none
      | e :: rest1 =>
        if e = '"' ∨ e = '\\' ∨ e = '/' then parseStringBody rest1 (e :: acc)
        else if e = 'n' then parseStringBody rest1 ('\n' :: acc)
        else if e = 't' then parseStringBody rest1 ('\t' :: acc)
        else if e = 'r' then parseStringBody rest1 ('\r' :: acc)
        else if e = 'b' then parseStringBody rest1 (Char.ofNat 8 :: acc)
        else if e = 'f' then parseStringBody rest1 (Char.ofNat 12 :: acc)
        else if e = 'u' then
          match rest1 with
          | h1 :: h2 :: h3 :: h4 :: rest2 =>
            match hexVal h1, hexVal h2, hexVal h3, hexVal h4 with
            | some a, some b, some c, some d =>
              parseStringBody rest2 (Char.ofNat (((a * 16 + b) * 16 + c) * 16 + d) :: acc)
            | _, _, _, _ => none
          | _ => none
        else none
    else if c.toNat < 32 then none
    else parseStringBody rest (c :: acc)

def digitsToNat (ds : List Char) : Nat :=
  ds.foldl (fun acc c => acc * 10 + (c.toNat - '0'.toNat)) 0

/-- Modelled from the spec: the number production (JSON), decoded — as
`encoding/json` does into `interface{}` — to a `float64`; the model keeps
the exact rational value (rounding to binary64 is not modelled). -/
def parseNumber (input : List Char) : Option (GoFloat × List Char) :=
  let p1 : Bool × List Char :=
    match input with
    | '-' :: r => (true, r)
    | _ => (false, input)
  let neg := p1.1
  let rest1 := p1.2
  let intDs := rest1.takeWhile Char.isDigit
  let rest2 := rest1.dropWhile Char.isDigit
  if intDs.isEmpty then none
  else if 1 < intDs.length ∧ intDs.head? = some '0' then none
  else
    let hasDot : Bool := match rest2 with | '.' :: _ => true | _ => false
    let afterDot := match rest2 with | '.' :: r => r | _ => rest2
    let fracDs := if hasDot then afterDot.takeWhile Char.isDigit else []
    let rest3 := if hasDot then afterDot.dropWhile Char.isDigit else rest2
    if hasDot ∧ fracDs.isEmpty then none
    else
      let hasExp : Bool := match rest3 with | e :: _ => e = 'e' ∨ e = 'E' | _ => false
      let afterE := match rest3 with | _ :: r => r | [] => []
      let expNeg : Bool := hasExp && (match afterE with | '-' :: _ => true | _ => false)
      let afterSign := match afterE with
        | '+' :: r => r
        | '-' :: r => r
        | r => r
      let expDs := if hasExp then afterSign.takeWhile Char.isDigit else []
      let rest4 := if hasExp then afterSign.dropWhile Char.isDigit else rest3
      if hasExp ∧ expDs.isEmpty then none
      else
        let m : Int := (digitsToNat (intDs ++ fracDs) : Int)
        let m := if neg then -m else m
        let e10 : Int :=
          (if expNeg then -(digitsToNat expDs : Int) else (digitsToNat expDs : Int)) -
            (fracDs.length : Int)
        let q : ℚ :=
          if 0 ≤ e10 then mkRat (m * (((10 : Nat) ^ e10.toNat : Nat) : Int)) 1
          else mkRat m ((10 : Nat) ^ (-e10).toNat)
        some (.num q, rest4)

/-- Insertion into a map's entry list under Go map-assignment semantics:
an existing key keeps its position, its value is overwritten. -/
def insertEntry (es : List (GoValue × GoValue)) (k v : GoValue) : List (GoValue × GoValue) :=
  match es with
  | [] => [(k, v)]
  | (k0, v0) :: rest =>
    if GoValue.beq k0 k then (k0, v) :: rest else (k0, v0) :: insertEntry rest k v

mutual

/-- Modelled from the spec: a generic structured value as
`encoding/json.Unmarshal` decodes one into `interface{}` — null, booleans,
float64 numbers, strings, `[]interface{}` and `map[string]interface{}`.
The inner `Option GoValue` is the decoded interface content (`none` for
null); fuel bounds the recursion depth. -/
def parseValue : Nat → List Char → Option (Option GoValue × List Char)
  | 0, _ => none
  | fuel + 1, input =>
    match skipWs input with
    | [] => none
    | c :: rest =>
      if c = 'n' then (expectLit ['u', 'l', 'l'] rest).map (fun r => (none, r))
      else if c = 't' then
        (expectLit ['r', 'u', 'e'] rest).map (fun r => (some (.vbool true), r))
      else if c = 'f' then
        (expectLit ['a', 'l', 's', 'e'] rest).map (fun r => (some (.vbool false), r))
      else if c = '"' then
        (parseStringBody rest []).map (fun p => (some (.vstring p.1), p.2))
      else if c = '[' then
        match skipWs rest with
        | ']' :: r => some (some (.vslice .iface []), r)
        | r => (parseElems fuel r).map (fun p => (some (.vslice .iface p.1), p.2))
      else if c = '{' then
        match skipWs rest with
        | '}' :: r => some (some (.vmap .string .iface []), r)
        | r => (parseMembers fuel r []).map (fun p => (some (.vmap .string .iface p.1), p.2))
      else if c = '-' ∨ c.isDigit then
        (parseNumber (c :: rest)).map (fun p => (some (.vfloat p.1), p.2))
      else none

def parseElems : Nat → List Char → Option (List GoValue × List Char)
  | 0, _ => none
  | fuel + 1, input =>
    match parseValue fuel input with
    | none => none
    | some (v, rest) =>
      match skipWs rest with
      | ',' :: r => (parseElems fuel r).map (fun p => (GoValue.viface v :: p.1, p.2))
      | ']' :: r => some ([GoValue.viface v], r)
      | _ => none

def parseMembers : Nat → List Char → List (GoValue × GoValue) →
    Option (List (GoValue × GoValue) × List Char)
  | 0, _, _ => none
  | fuel + 1, input, acc =>
    match skipWs input with
    | '"' :: rest =>
      match parseStringBody rest [] with
      | none => none
      | some (k, rest1) =>
        match skipWs rest1 with
        | ':' :: rest2 =>
          match parseValue fuel rest2 with
          | none => none
          | some (v, rest3) =>
            match skipWs rest3 with
            | ',' :: r => parseMembers fuel r (insertEntry acc (.vstring k) (.viface v))
            | '}' :: r => some (insertEntry acc (.vstring k) (.viface v), r)
            | _ => none
        | _ => none
    | _ => none

end

/-- Modelled from the spec: `json.Unmarshal(body, &x)` for
`x : interface{}` — `none` is a parse error (trailing garbage included);
a successful decode yields the dynamic value of `x` as `reflect.ValueOf`
sees it, so a top-level null leaves `x` nil and yields the zero `Value`
(`invalid`). -/
def jsonUnmarshal (s : List Char) : Option GoValue :=
  match parseValue (2 * s.length + 4) s with
  | none => none
  | some (v, rest) => if (skipWs rest).isEmpty then some (v.getD .invalid) else none

/-- An `*http.Response` as `MatchesHTTPResponse` reads it: the status
code, the `Header` and `Trailer` map values, and the outcome of
`ioutil.ReadAll(Body)`: either the bytes or a read error.  An error value
is identified by a `Nat` tag; Go compares the two `error` interface
values with `==`, under which two distinct error values (e.g. two
separate `errors.New` results) differ even with equal messages. -/
structure HTTPResponse where
  statusCode : Int
  header : GoValue
  trailer : GoValue
  body : Except Nat (List Char)

/-- `MatchesHTTPResponse` (src/match.go lines 12–41), with the body-read
effect made explicit: the second and third components count how many
times the expected and actual bodies were drained (each `ReadAll` line
reads its stream exactly once, and the reads happen only when the status
and header checks have passed). -/
def MatchesHTTPResponse (unmarshal : List Char → Option GoValue)
    (e a : HTTPResponse) : Except Unit Bool × Nat × Nat :=
  if e.statusCode ≠ a.statusCode then (.ok false, 0, 0)
  else
    match Matches e.header a.header with
    | .error () => (.error (), 0, 0)
    | .ok false => (.ok false, 0, 0)
    | .ok true =>
      match e.body, a.body with
      | .error x, .error y => (.ok (x == y), 1, 1)
      | .error _, .ok _ => (.ok false, 1, 1)
      | .ok _, .error _ => (.ok false, 1, 1)
      | .ok expBody, .ok actBody =>
        match Matches e.trailer a.trailer with
        | .error () => (.error (), 1, 1)
        | .ok false => (.ok false, 1, 1)
        | .ok true =>
          match unmarshal expBody with
          | none => (.ok (expBody == actBody), 1, 1)
          | some exp =>
            match unmarshal actBody with
            | none => (.ok false, 1, 1)
            | some act => (Matches exp act, 1, 1)

/-- `MatchesHTTPResponse` with the concrete `json.Unmarshal` model. -/
def MatchesHTTPResponseJSON (e a : HTTPResponse) : Except Unit Bool × Nat × Nat :=
  MatchesHTTPResponse jsonUnmarshal e a

/-- The empty `http.Header` value. -/
def emptyHeader : GoValue := .vmap .string (.slice .string) []

theorem matches_emptyHeader : Matches emptyHeader emptyHeader = .ok true := by
  simp [emptyHeader, Matches, matchesValues_map, mapLoop]

/-- Once the status and header checks pass, `MatchesHTTPResponse` is the
body-read and body-comparison pipeline (both bodies read once). -/
theorem matchesHTTPResponse_after_checks (um : List Char → Option GoValue)
    (e a : HTTPResponse) (hst : e.statusCode = a.statusCode)
    (hh : Matches e.header a.header = .ok true) :
    MatchesHTTPResponse um e a =
      (match e.body, a.body with
       | .error x, .error y => (.ok (x == y), 1, 1)
       | .error _, .ok _ => (.ok false, 1, 1)
       | .ok _, .error _ => (.ok false, 1, 1)
       | .ok expBody, .ok actBody =>
         (match Matches e.trailer a.trailer with
          | .error () => (.error (), 1, 1)
          | .ok false => (.ok false, 1, 1)
          | .ok true =>
            match um expBody with
            | none => (.ok (expBody == actBody), 1, 1)
            | some exp =>
              match um actBody with
              | none => (.ok false, 1, 1)
              | some act => (Matches exp act, 1, 1))) := by
  rw [show MatchesHTTPResponse um e a =
      (if e.statusCode ≠ a.statusCode then (.ok false, 0, 0)
       else match Matches e.header a.header with
       | .error () => (.error (), 0, 0)
       | .ok false => (.ok false, 0, 0)
       | .ok true =>
         match e.body, a.body with
         | .error x, .error y => (.ok (x == y), 1, 1)
         | .error _, .ok _ => (.ok false, 1, 1)
         | .ok _, .error _ => (.ok false, 1, 1)
         | .ok expBody, .ok actBody =>
           (match Matches e.trailer a.trailer with
            | .error () => (.error (), 1, 1)
            | .ok false => (.ok false, 1, 1)
            | .ok true =>
              match um expBody with
              | none => (.ok (expBody == actBody), 1, 1)
              | some exp =>
                match um actBody with
                | none => (.ok false, 1, 1)
                | some act => (Matches exp act, 1, 1))) from rfl]
  rw [if_neg (by omega), hh]

/-! ### C10: body-read discipline -/

/-- The claim C10 is false on the code: on a status mismatch
`MatchesHTTPResponse` returns `false` without reading either body, so the
bodies are not "fully drained exactly once on every invocation". -/
theorem claim_C10_counterexample :
    MatchesHTTPResponseJSON
      { statusCode := 200, header := emptyHeader, trailer := emptyHeader,
        body := .ok ['x'] }
      { statusCode := 404, header := emptyHeader, trailer := emptyHeader,
        body := .ok ['x'] } = (.ok false, 0, 0) := by
  simp [MatchesHTTPResponseJSON, MatchesHTTPResponse]

/-- C10 amended: each body is read at most once and never twice, the two
bodies are always read the same number of times, and they are read
(exactly once) precisely when the status codes are equal and the header
comparison returns `true`; on the early-false paths (status or header
mismatch, header panic) neither body is read. -/
theorem claim_C10_body_reads (um : List Char → Option GoValue) (e a : HTTPResponse) :
    (MatchesHTTPResponse um e a).2.1 = (MatchesHTTPResponse um e a).2.2 ∧
    (MatchesHTTPResponse um e a).2.1 ≤ 1 ∧
    ((MatchesHTTPResponse um e a).2.1 = 1 ↔
      e.statusCode = a.statusCode ∧ Matches e.header a.header = .ok true) := by
  by_cases hst : e.statusCode = a.statusCode
  · cases hh : Matches e.header a.header with
    | error u =>
      cases u
      rw [show MatchesHTTPResponse um e a = (.error (), 0, 0) from by
        rw [MatchesHTTPResponse, if_neg (by omega), hh]]
      simp [hh]
    | ok b =>
      cases b with
      | false =>
        rw [show MatchesHTTPResponse um e a = (.ok false, 0, 0) from by
          rw [MatchesHTTPResponse, if_neg (by omega), hh]]
        simp [hh]
      | true =>
        rw [matchesHTTPResponse_after_checks um e a hst hh]
        cases hb : e.body with
        | error x =>
          cases hc : a.body <;> simp [hst, hh]
        | ok bb =>
          cases hc : a.body with
          | error y => simp [hst, hh]
          | ok cc =>
            cases htr : Matches e.trailer a.trailer with
            | error u => cases u; simp [hst, hh]
            | ok b2 =>
              cases b2 with
              | false => simp [hst, hh]
              | true =>
                cases hub : um bb with
                | none => simp [hst, hh, hub]
                | some x =>
                  cases huc : um cc with
                  | none => simp [hst, hh, hub, huc]
                  | some y => simp [hst, hh, hub, huc]
  · rw [show MatchesHTTPResponse um e a = (.ok false, 0, 0) from by
      rw [MatchesHTTPResponse, if_pos (by omega)]]
    simp [hst]

/-! ### C4: body-read failures -/

/-- A 200 response with empty header and trailer maps and the given body
read outcome. -/
def respWithBody (b : Except Nat (List Char)) : HTTPResponse :=
  { statusCode := 200, header := emptyHeader, trailer := emptyHeader, body := b }

/-- The claim C4 is false on the code: with both reads failing but with
two distinct error values, `expErr == actErr` is `false`, so the result
is a non-match even though both reads failed. -/
theorem claim_C4_counterexample :
    (respWithBody (.error 1)).body = .error 1 ∧
    (respWithBody (.error 2)).body = .error 2 ∧
    MatchesHTTPResponseJSON (respWithBody (.error 1)) (respWithBody (.error 2)) =
      (.ok false, 1, 1) := by
  refine ⟨rfl, rfl, ?_⟩
  show MatchesHTTPResponse jsonUnmarshal _ _ = _
  rw [matchesHTTPResponse_after_checks jsonUnmarshal (respWithBody (.error 1))
    (respWithBody (.error 2)) rfl matches_emptyHeader]
  rfl

/-- C4 amended: after status and header checks pass, both bodies are read
exactly once, and if reading either fails the result is `expErr == actErr`:
both failing with the *same* error value is a match, both failing with
distinct error values is not, exactly one failing is not, and success of
both reads proceeds to the trailer and body comparison steps. -/
theorem claim_C4_read_errors (um : List Char → Option GoValue) (e a : HTTPResponse)
    (hst : e.statusCode = a.statusCode) (hh : Matches e.header a.header = .ok true) :
    (∀ x y, e.body = .error x → a.body = .error y →
      (MatchesHTTPResponse um e a).1 = .ok (x == y)) ∧
    (∀ x b, e.body = .error x → a.body = .ok b →
      (MatchesHTTPResponse um e a).1 = .ok false) ∧
    (∀ b y, e.body = .ok b → a.body = .error y →
      (MatchesHTTPResponse um e a).1 = .ok false) ∧
    (∀ b c, e.body = .ok b → a.body = .ok c →
      (MatchesHTTPResponse um e a).1 =
        (match Matches e.trailer a.trailer with
         | .error () => .error ()
         | .ok false => .ok false
         | .ok true =>
           match um b with
           | none => .ok (b == c)
           | some x =>
             match um c with
             | none => .ok false
             | some y => Matches x y)) := by
  refine ⟨?_, ?_, ?_, ?_⟩
  · intro x y hx hy
    rw [matchesHTTPResponse_after_checks um e a hst hh, hx, hy]
  · intro x b hx hb
    rw [matchesHTTPResponse_after_checks um e a hst hh, hx, hb]
  · intro b y hb hy
    rw [matchesHTTPResponse_after_checks um e a hst hh, hb, hy]
  · intro b c hb hc
    rw [matchesHTTPResponse_after_checks um e a hst hh, hb, hc]
    show (match Matches e.trailer a.trailer with
      | .error () => ((.error () : Except Unit Bool), 1, 1)
      | .ok false => (.ok false, 1, 1)
      | .ok true =>
        match um b with
        | none => (.ok (b == c), 1, 1)
        | some exp =>
          match um c with
          | none => (.ok false, 1, 1)
          | some act => (Matches exp act, 1, 1)).1 = _
    cases htr : Matches e.trailer a.trailer with
    | error u => cases u; rfl
    | ok b2 =>
      cases b2 with
      | false => rfl
      | true =>
        cases hub : um b with
        | none => rfl
        | some x =>
          cases huc : um c with
          | none => rfl
          | some y => rfl

/-- Witness for C4 at a concrete input: both bodies fail with the same
error value and the responses match. -/
theorem claim_C4_witness :
    (MatchesHTTPResponse jsonUnmarshal (respWithBody (.error 3))
      (respWithBody (.error 3))).1 = .ok (3 == 3) :=
  (claim_C4_read_errors jsonUnmarshal (respWithBody (.error 3)) (respWithBody (.error 3))
    rfl matches_emptyHeader).1 3 3 rfl rfl

/-! ### C5: body comparison -/

/-- `Matches` panics on the parses of `{"a":[1,2]}` and `{"a":[2,1]}`:
the two `interface{}` values wrapping `[]interface{}` meet the `default:`
arm and `==` panics on the uncomparable dynamic type. -/
theorem jsonNestedArrays_panic :
    Matches
      (.vmap .string .iface [(.vstring "a", .viface (some (.vslice .iface
        [.viface (some (.vfloat (.num 1))), .viface (some (.vfloat (.num 2)))])))])
      (.vmap .string .iface [(.vstring "a", .viface (some (.vslice .iface
        [.viface (some (.vfloat (.num 2))), .viface (some (.vfloat (.num 1)))])))]) =
      .error () := by
  rw [Matches, matchesValues_map]
  simp [mapLoop, lookupEntry, GoValue.beq, matchesValues_iface, goEq, GoValue.typeOf,
    GoType.beq, GoType.comparable]

theorem jsonNestedArrays_panic_response :
    MatchesHTTPResponseJSON
      (respWithBody (.ok (("\x7b\"a\":[1,2]\x7d").data)))
      (respWithBody (.ok (("\x7b\"a\":[2,1]\x7d").data))) = (.error (), 1, 1) := by
  show MatchesHTTPResponse jsonUnmarshal _ _ = _
  rw [matchesHTTPResponse_after_checks jsonUnmarshal
    (respWithBody (.ok (("\x7b\"a\":[1,2]\x7d").data)))
    (respWithBody (.ok (("\x7b\"a\":[2,1]\x7d").data))) rfl matches_emptyHeader]
  show (match Matches emptyHeader emptyHeader with
    | .error () => ((.error () : Except Unit Bool), 1, 1)
    | .ok false => (.ok false, 1, 1)
    | .ok true =>
      match jsonUnmarshal (("\x7b\"a\":[1,2]\x7d").data) with
      | none => (.ok ((("\x7b\"a\":[1,2]\x7d").data) == (("\x7b\"a\":[2,1]\x7d").data)), 1, 1)
      | some exp =>
        match jsonUnmarshal (("\x7b\"a\":[2,1]\x7d").data) with
        | none => (.ok false, 1, 1)
        | some act => (Matches exp act, 1, 1)) = ((.error () : Except Unit Bool), 1, 1)
  rw [matches_emptyHeader]
  rw [show jsonUnmarshal (("\x7b\"a\":[1,2]\x7d").data) =
      some (.vmap .string .iface [(.vstring "a", .viface (some (.vslice .iface
        [.viface (some (.vfloat (.num 1))), .viface (some (.vfloat (.num 2)))])))]) from rfl]
  rw [show jsonUnmarshal (("\x7b\"a\":[2,1]\x7d").data) =
      some (.vmap .string .iface [(.vstring "a", .viface (some (.vslice .iface
        [.viface (some (.vfloat (.num 2))), .viface (some (.vfloat (.num 1)))])))]) from rfl]
  show (Matches
      (.vmap .string .iface [(.vstring "a", .viface (some (.vslice .iface
        [.viface (some (.vfloat (.num 1))), .viface (some (.vfloat (.num 2)))])))])
      (.vmap .string .iface [(.vstring "a", .viface (some (.vslice .iface
        [.viface (some (.vfloat (.num 2))), .viface (some (.vfloat (.num 1)))])))]),
      (1 : Nat), (1 : Nat)) = ((.error () : Except Unit Bool), 1, 1)
  rw [jsonNestedArrays_panic]

/-- The claim C5 is false on the code: on the spec's own example —
expected body `{"a":[1,2]}`, actual body `{"a":[2,1]}`, matching status,
headers and trailers — `MatchesHTTPResponse` panics instead of returning
`true` (both bodies parse, and `Matches` on the parsed values panics on
the interface-wrapped arrays). -/
theorem claim_C5_counterexample :
    MatchesHTTPResponseJSON
      (respWithBody (.ok (("\x7b\"a\":[1,2]\x7d").data)))
      (respWithBody (.ok (("\x7b\"a\":[2,1]\x7d").data))) = (.error (), 1, 1) :=
  jsonNestedArrays_panic_response

/-- C5 amended: when both body reads succeed and status, headers and
trailers match: if the expected body fails to parse as JSON the verdict is
exact raw-byte equality of the two bodies; if the expected body parses but
the actual body does not, the verdict is `false`; if both parse, the
verdict is `Matches` applied to the two parsed generic values — which on
`{"a":[1,2]}` vs `{"a":[2,1]}` panics rather than returning `true`.  Raw
`hello` vs `hello` is `true` and `hello` vs `hullo` is `false`. -/
theorem claim_C5_body_comparison :
    (∀ (um : List Char → Option GoValue) (e a : HTTPResponse) (b c : List Char),
      e.statusCode = a.statusCode → Matches e.header a.header = .ok true →
      e.body = .ok b → a.body = .ok c → Matches e.trailer a.trailer = .ok true →
      (MatchesHTTPResponse um e a).1 =
        (match um b with
         | none => .ok (b == c)
         | some x =>
           match um c with
           | none => .ok false
           | some y => Matches x y)) ∧
    MatchesHTTPResponseJSON (respWithBody (.ok (("hello").data)))
      (respWithBody (.ok (("hello").data))) = (.ok true, 1, 1) ∧
    MatchesHTTPResponseJSON (respWithBody (.ok (("hello").data)))
      (respWithBody (.ok (("hullo").data))) = (.ok false, 1, 1) ∧
    MatchesHTTPResponseJSON
      (respWithBody (.ok (("\x7b\"a\":[1,2]\x7d").data)))
      (respWithBody (.ok (("\x7b\"a\":[2,1]\x7d").data))) = (.error (), 1, 1) := by
  refine ⟨?_, ?_, ?_, jsonNestedArrays_panic_response⟩
  · intro um e a b c hst hh hb hc htr
    rw [matchesHTTPResponse_after_checks um e a hst hh, hb, hc]
    show (match Matches e.trailer a.trailer with
      | .error () => ((.error () : Except Unit Bool), 1, 1)
      | .ok false => (.ok false, 1, 1)
      | .ok true =>
        match um b with
        | none => (.ok (b == c), 1, 1)
        | some exp =>
          match um c with
          | none => (.ok false, 1, 1)
          | some act => (Matches exp act, 1, 1)).1 = _
    rw [htr]
    cases hub : um b with
    | none => rfl
    | some x =>
      cases huc : um c with
      | none => rfl
      | some y => rfl
  · show MatchesHTTPResponse jsonUnmarshal _ _ = _
    rw [matchesHTTPResponse_after_checks jsonUnmarshal _ _ rfl matches_emptyHeader]
    show (match Matches emptyHeader emptyHeader with
      | .error () => ((.error () : Except Unit Bool), 1, 1)
      | .ok false => (.ok false, 1, 1)
      | .ok true =>
        match jsonUnmarshal (("hello").data) with
        | none => (.ok ((("hello").data) == (("hello").data)), 1, 1)
        | some exp =>
          match jsonUnmarshal (("hello").data) with
          | none => (.ok false, 1, 1)
          | some act => (Matches exp act, 1, 1)) = ((.ok true : Except Unit Bool), 1, 1)
    rw [matches_emptyHeader]
    rfl
  · show MatchesHTTPResponse jsonUnmarshal _ _ = _
    rw [matchesHTTPResponse_after_checks jsonUnmarshal
      (respWithBody (.ok (("hello").data))) (respWithBody (.ok (("hullo").data)))
      rfl matches_emptyHeader]
    show (match Matches emptyHeader emptyHeader with
      | .error () => ((.error () : Except Unit Bool), 1, 1)
      | .ok false => (.ok false, 1, 1)
      | .ok true =>
        match jsonUnmarshal (("hello").data) with
        | none => (.ok ((("hello").data) == (("hullo").data)), 1, 1)
        | some exp =>
          match jsonUnmarshal (("hullo").data) with
          | none => (.ok false, 1, 1)
          | some act => (Matches exp act, 1, 1)) = ((.ok false : Except Unit Bool), 1, 1)
    rw [matches_emptyHeader]
    rfl

/-- Witness for C5 at a concrete input. -/
theorem claim_C5_witness :
    (MatchesHTTPResponse jsonUnmarshal (respWithBody (.ok (("hello").data)))
      (respWithBody (.ok (("hello").data)))).1 =
      (match jsonUnmarshal (("hello").data) with
       | none => .ok ((("hello").data) == (("hello").data))
       | some x =>
         match jsonUnmarshal (("hello").data) with
         | none => .ok false
         | some y => Matches x y) :=
  claim_C5_body_comparison.1 jsonUnmarshal (respWithBody (.ok (("hello").data)))
    (respWithBody (.ok (("hello").data))) (("hello").data) (("hello").data)
    rfl matches_emptyHeader rfl rfl matches_emptyHeader

end GoMatch
